import Mathlib

/-!
Shallow embedding of `src/Rest-API-Attest.js`, an Express CRUD service for
user records persisted to one JSON file, validated with a Joi schema.

Modelling conventions:
* A JSON value in a request body is a `JValue` (string / number / boolean /
  array).  Numbers are modelled as `Int` (the schema constrains `age` to
  the integer range 1..120).  Joi's default `convert: true` coercions are
  modelled where the schema observes them: a numeric string validates as
  `age` and a boolean string as `isActive`, normalizing to the coerced
  value; `Joi.string()` fields convert nothing.
* A request body is a record of optional `JValue`s for the seven schema keys
  plus the list of unknown key names present in the body (`unknownKeys`).
* Joi error messages are modelled by their Joi error codes
  (`"any.required"`, `"string.min"`, ...); the source attaches localized
  human-readable texts to the same codes, which no claim inspects.  An
  error entry's `field` is Joi's `detail.context.key`: the object key for
  key-level failures, the numeric array index for array-item failures
  (`FieldKey`).
* Each handler is a pure function from the in-memory collection (the parsed
  contents of `users.json`) and the request data to a response and the new
  collection.  `new Date().toISOString()` is modelled by a `now : String`
  parameter, one per request.  `uuidv4()` is modelled by a `newId : String`
  parameter.
-/

namespace RestAPI

/-- An element of a JSON array, at the granularity
`Joi.array().items(Joi.string())` observes it: a string (with its
contents) or any non-string value. -/
inductive JItem where
  | istr (s : String)
  | inonstr
  deriving DecidableEq, Repr

/-- A JSON value as it may appear in a request body field. -/
inductive JValue where
  | jstr (s : String)
  | jnum (n : Int)
  | jbool (b : Bool)
  | jarr (items : List JItem)
  deriving DecidableEq, Repr

/-- A request body: the seven keys of `userSchema`, each optionally present,
plus the names of any other keys present in the JSON object. -/
structure ReqBody where
  firstName : Option JValue := none
  lastName : Option JValue := none
  age : Option JValue := none
  email : Option JValue := none
  city : Option JValue := none
  hobbies : Option JValue := none
  isActive : Option JValue := none
  unknownKeys : List String := []
  deriving DecidableEq, Repr

/-- The `field` of a 422 error entry: Joi's `detail.context.key`, which is
the string object key for a key-level failure but the NUMERIC array index
for an array-item failure (`detail.path` ends in the index).  The JSON
response keeps the two apart exactly as this sum does: `"field": "age"`
versus `"field": 0`. -/
inductive FieldKey where
  | key (s : String)
  | idx (n : Nat)
  deriving DecidableEq, Repr

/-- One `{field, message}` entry of a 422 response, as built in
`validateUserData` from `error.details`. -/
structure FieldError where
  field : FieldKey
  message : String
  deriving DecidableEq, Repr

/-- Splits a character list on a separator character (every occurrence a
cut, so `n` separators yield `n + 1` pieces, possibly empty). -/
def splitOnChar (c : Char) : List Char → List (List Char)
  | [] => [[]]
  | x :: xs =>
      match splitOnChar c xs with
      | [] => if x == c then [[], []] else [[x]]
      | y :: ys => if x == c then [] :: y :: ys else (x :: y) :: ys

/-- Abstraction of Joi's `string().email()` check: one `@` separating a
non-empty local part from a domain of at least two non-empty dot-separated
labels.  (Joi's exact grammar is larger; every concrete email in this
development is uncontroversial under both.) -/
def emailOk (s : String) : Bool :=
  match splitOnChar '@' s.data with
  | [lp, dom] =>
      !lp.isEmpty &&
        (splitOnChar '.' dom).length ≥ 2 &&
        (splitOnChar '.' dom).all (fun l => !l.isEmpty)
  | _ => false

/-- `Joi.string().min(2).max(50).required()` for `firstName` / `lastName`.
`Joi.string()` performs no type conversion: any non-string is
`string.base`. -/
def checkName (key : String) (v : Option JValue) : Option FieldError :=
  match v with
  | none => some ⟨FieldKey.key key, "any.required"⟩
  | some (JValue.jstr s) =>
      if s.length = 0 then some ⟨FieldKey.key key, "string.empty"⟩
      else if s.length < 2 then some ⟨FieldKey.key key, "string.min"⟩
      else if s.length > 50 then some ⟨FieldKey.key key, "string.max"⟩
      else none
  | some _ => some ⟨FieldKey.key key, "string.base"⟩

/-- Reads a digit sequence as a natural number (`none` when empty or when
any character is not a digit). -/
def decNat? (cs : List Char) : Option Nat :=
  if cs.isEmpty then none
  else
    cs.foldl
      (fun acc c =>
        match acc with
        | none => none
        | some n => if c.isDigit then some (n * 10 + (c.toNat - 48)) else none)
      (some 0)

/-- The numeric value Joi's default `convert: true` gives a string fed to
`Joi.number()`: an optional leading minus and decimal digits.  (Joi's full
grammar also takes fractions and exponents; no claim exercises them and the
schema's 1..120 range is integral.) -/
def jsNumber? (s : String) : Option Int :=
  match s.data with
  | '-' :: rest => (decNat? rest).map (fun n => -(n : Int))
  | cs => (decNat? cs).map (fun n => (n : Int))

/-- The range rules of `Joi.number().min(1).max(120)`. -/
def ageRange (n : Int) : Option FieldError :=
  if n < 1 then some ⟨FieldKey.key "age", "number.min"⟩
  else if n > 120 then some ⟨FieldKey.key "age", "number.max"⟩
  else none

/-- `Joi.number().min(1).max(120).required()` for `age`.  Joi's default
`convert: true` coerces a numeric string (e.g. `"30"`) to its number before
the range rules; a non-numeric value is `number.base`. -/
def checkAge (v : Option JValue) : Option FieldError :=
  match v with
  | none => some ⟨FieldKey.key "age", "any.required"⟩
  | some (JValue.jnum n) => ageRange n
  | some (JValue.jstr s) =>
      match jsNumber? s with
      | some n => ageRange n
      | none => some ⟨FieldKey.key "age", "number.base"⟩
  | some _ => some ⟨FieldKey.key "age", "number.base"⟩

/-- `Joi.string().email().required()` for `email`. -/
def checkEmail (v : Option JValue) : Option FieldError :=
  match v with
  | none => some ⟨FieldKey.key "email", "any.required"⟩
  | some (JValue.jstr s) =>
      if s.length = 0 then some ⟨FieldKey.key "email", "string.empty"⟩
      else if emailOk s then none else some ⟨FieldKey.key "email", "string.email"⟩
  | some _ => some ⟨FieldKey.key "email", "string.base"⟩

/-- `Joi.string().min(2).max(50)` for the optional `city`. -/
def checkCity (v : Option JValue) : Option FieldError :=
  match v with
  | none => none
  | some (JValue.jstr s) =>
      if s.length = 0 then some ⟨FieldKey.key "city", "string.empty"⟩
      else if s.length < 2 then some ⟨FieldKey.key "city", "string.min"⟩
      else if s.length > 50 then some ⟨FieldKey.key "city", "string.max"⟩
      else none
  | some _ => some ⟨FieldKey.key "city", "string.base"⟩

/-- The item failures of `Joi.array().items(Joi.string())` on an array:
with `abortEarly: false` Joi emits one `string.base` detail per non-string
item, whose `context.key` is the item's NUMERIC index. -/
def hobbiesItemErrors (start : Nat) : List JItem → List FieldError
  | [] => []
  | JItem.istr _ :: rest => hobbiesItemErrors (start + 1) rest
  | JItem.inonstr :: rest =>
      ⟨FieldKey.idx start, "string.base"⟩ :: hobbiesItemErrors (start + 1) rest

/-- `Joi.array().items(Joi.string()).default([])` for the optional
`hobbies`: absent is fine (default applies), a non-array is one
`array.base` error keyed `hobbies`, an array contributes one index-keyed
`string.base` error per non-string item. -/
def checkHobbies (v : Option JValue) : List FieldError :=
  match v with
  | none => []
  | some (JValue.jarr items) => hobbiesItemErrors 0 items
  | some _ => [⟨FieldKey.key "hobbies", "array.base"⟩]

/-- `Joi.boolean().default(true)` for the optional `isActive`.  Joi's
default `convert: true` accepts the strings "true"/"false"
(case-insensitively, `sensitive()` not being set); anything else non-bool
is `boolean.base`. -/
def checkIsActive (v : Option JValue) : Option FieldError :=
  match v with
  | none => none
  | some (JValue.jbool _) => none
  | some (JValue.jstr s) =>
      if s.toLower = "true" || s.toLower = "false" then none
      else some ⟨FieldKey.key "isActive", "boolean.base"⟩
  | some _ => some ⟨FieldKey.key "isActive", "boolean.base"⟩

/-- All violations collected by `userSchema.validate` with
`abortEarly: false`: one entry per failing schema key in schema order,
then one `object.unknown` ("is not allowed") entry per unknown key, since
the schema leaves Joi's default `allowUnknown: false` in force. -/
def bodyErrors (b : ReqBody) : List FieldError :=
  (checkName "firstName" b.firstName).toList ++
  (checkName "lastName" b.lastName).toList ++
  (checkAge b.age).toList ++
  (checkEmail b.email).toList ++
  (checkCity b.city).toList ++
  checkHobbies b.hobbies ++
  (checkIsActive b.isActive).toList ++
  b.unknownKeys.map (fun k => ⟨FieldKey.key k, "object.unknown"⟩)

/-- The normalized `value` Joi returns on success: typed field values with
the schema defaults (`hobbies := []`, `isActive := true`) applied; `city`
stays absent when absent from the body (no default).  Only meaningful when
`bodyErrors b = []`. -/
structure ValidatedData where
  firstName : String
  lastName : String
  age : Int
  email : String
  city : Option String
  hobbies : List String
  isActive : Bool
  deriving DecidableEq, Repr

/-- Extraction of the normalized value from a body (used after a successful
validation; fallback arms are never hit then).  Joi's `convert: true`
shows here: a numeric-string `age` becomes its number, a boolean-string
`isActive` its boolean, as the validated `value` carries the coerced
data. -/
def normalize (b : ReqBody) : ValidatedData where
  firstName := match b.firstName with | some (JValue.jstr s) => s | _ => ""
  lastName := match b.lastName with | some (JValue.jstr s) => s | _ => ""
  age :=
    match b.age with
    | some (JValue.jnum n) => n
    | some (JValue.jstr s) => (jsNumber? s).getD 0
    | _ => 0
  email := match b.email with | some (JValue.jstr s) => s | _ => ""
  city := match b.city with | some (JValue.jstr s) => some s | _ => none
  hobbies :=
    match b.hobbies with
    | some (JValue.jarr items) =>
        items.filterMap (fun it => match it with | JItem.istr s => some s | _ => none)
    | _ => []
  isActive :=
    match b.isActive with
    | some (JValue.jbool bv) => bv
    | some (JValue.jstr s) => s.toLower == "true"
    | _ => true

/-- `userSchema.validate(req.body)` as used by the `validateUserData`
middleware: on any violation the list of `{field, message}` entries,
otherwise the normalized value. -/
def validateUserData (b : ReqBody) : Except (List FieldError) ValidatedData :=
  match bodyErrors b with
  | [] => Except.ok (normalize b)
  | es => Except.error es

/-- A persisted user record (an element of the `users.json` array). -/
structure User where
  id : String
  firstName : String
  lastName : String
  age : Int
  email : String
  city : Option String
  hobbies : List String
  isActive : Bool
  createdAt : String
  updatedAt : String
  deriving DecidableEq, Repr

/-- Scans the haystack character list for an occurrence of the needle. -/
def strContainsAux (needle : List Char) : List Char → Bool
  | [] => needle.isEmpty
  | c :: rest => needle.isPrefixOf (c :: rest) || strContainsAux needle rest

/-- JavaScript `haystack.includes(needle)`: substring containment. -/
def strContains (hay needle : String) : Bool :=
  strContainsAux needle.data hay.data

/-- A handler's HTTP outcome (status code and JSON payload, as far as the
claims observe them). -/
inductive HResult where
  | ok200 (u : User)
  | created201 (u : User)
  | notFound404
  | invalid422 (errs : List FieldError)
  deriving DecidableEq, Repr

/-- The `q` filter of `GET /v1/users`: applied only when the parameter is
present and non-empty (JavaScript `if (q)`), keeping users whose lowercased
first or last name contains the lowercased search term. -/
def applyQ (q : Option String) (us : List User) : List User :=
  match q with
  | none => us
  | some s =>
      if s = "" then us
      else us.filter (fun u =>
        strContains u.firstName.toLower s.toLower || strContains u.lastName.toLower s.toLower)

/-- The `city` filter of `GET /v1/users`: case-insensitive exact match,
records without a city never match (`user.city && ...`). -/
def applyCity (c : Option String) (us : List User) : List User :=
  match c with
  | none => us
  | some s =>
      if s = "" then us
      else us.filter (fun u =>
        match u.city with
        | some uc => uc.toLower == s.toLower
        | none => false)

/-- The `isActive` filter of `GET /v1/users`:
`user.isActive === (isActive === 'true')`, applied only when the parameter
is present and non-empty. -/
def applyIsActive (a : Option String) (us : List User) : List User :=
  match a with
  | none => us
  | some s =>
      if s = "" then us
      else us.filter (fun u => u.isActive == (s == "true"))

/-- The `GET /v1/users` handler body: the three filters applied in source
order (`q`, then `city`, then `isActive`). -/
def listUsers (us : List User) (q c a : Option String) : List User :=
  applyIsActive a (applyCity c (applyQ q us))

/-- The `GET /v1/users/:id` lookup: `users.find(u => u.id === req.params.id)`. -/
def getUser (us : List User) (i : String) : Option User :=
  us.find? (fun u => u.id == i)

/-- The `POST /v1/users` handler (after the `validateUserData` middleware,
whose rejection leaves the file untouched): build the record from the
normalized data with a generated id and both timestamps set to now, append
it, persist. -/
def postUsers (us : List User) (b : ReqBody) (newId now : String) :
    HResult × List User :=
  match validateUserData b with
  | Except.error es => (HResult.invalid422 es, us)
  | Except.ok v =>
      let newUser : User :=
        { id := newId, firstName := v.firstName, lastName := v.lastName,
          age := v.age, email := v.email, city := v.city, hobbies := v.hobbies,
          isActive := v.isActive, createdAt := now, updatedAt := now }
      (HResult.created201 newUser, us ++ [newUser])

/-- `users.findIndex` followed by `users[userIndex] = f(users[userIndex])`:
replace the first record matching `p` in place, returning the new record
and the updated list, or `none` when no record matches (`findIndex === -1`). -/
def updateFirst (p : User → Bool) (f : User → User) : List User → Option (User × List User)
  | [] => none
  | u :: rest =>
      if p u then some (f u, f u :: rest)
      else
        match updateFirst p f rest with
        | none => none
        | some (r, rest2) => some (r, u :: rest2)

/-- The spread `{ ...users[userIndex], ...req.validatedData, updatedAt }` of
the PUT handler.  `req.validatedData` always carries the four required
fields and the defaulted `hobbies` / `isActive`, but carries a `city` key
only when the body had one, so an absent `city` leaves the old value. -/
def putMerge (old : User) (v : ValidatedData) (now : String) : User :=
  { old with
    firstName := v.firstName, lastName := v.lastName, age := v.age,
    email := v.email,
    city := match v.city with | some c => some c | none => old.city,
    hobbies := v.hobbies, isActive := v.isActive, updatedAt := now }

/-- The `PUT /v1/users/:id` handler, middleware included: validate the body
(422 on failure, before the id is ever looked up), locate the record by id
(404 when absent), overwrite it with the spread merge, persist. -/
def putUser (us : List User) (i : String) (b : ReqBody) (now : String) :
    HResult × List User :=
  match validateUserData b with
  | Except.error es => (HResult.invalid422 es, us)
  | Except.ok v =>
      match updateFirst (fun u => u.id == i) (fun old => putMerge old v now) us with
      | none => (HResult.notFound404, us)
      | some (updated, us2) => (HResult.ok200 updated, us2)

/-- The spread `{ ...users[userIndex], ...req.body, updatedAt }` of the
PATCH handler: the raw body (no defaults applied) over the old record, a
key overriding only when present in the body.  Reached only after the body
passed full-schema validation, so the ill-typed fallback arms are dead.
A PATCH body that passes only through Joi's `convert` coercions (e.g.
`age: "30"`) would spread the raw UNcoerced string into the stored record,
which the typed `User` cannot carry; no claim exercises such a body
(the one PATCH claim is evaluated at a concrete coercion-free input). -/
def patchMerge (old : User) (b : ReqBody) (now : String) : User where
  id := old.id
  firstName := match b.firstName with | some (JValue.jstr s) => s | _ => old.firstName
  lastName := match b.lastName with | some (JValue.jstr s) => s | _ => old.lastName
  age := match b.age with | some (JValue.jnum n) => n | _ => old.age
  email := match b.email with | some (JValue.jstr s) => s | _ => old.email
  city := match b.city with | some (JValue.jstr s) => some s | _ => old.city
  hobbies :=
    match b.hobbies with
    | some (JValue.jarr items) =>
        items.filterMap (fun it => match it with | JItem.istr s => some s | _ => none)
    | _ => old.hobbies
  isActive := match b.isActive with | some (JValue.jbool bv) => bv | _ => old.isActive
  createdAt := old.createdAt
  updatedAt := now

/-- The `PATCH /v1/users/:id` handler: locate the record by id first (404
when absent), then validate the RAW `req.body` — not the merged object —
against the full `userSchema` (422 on any violation, required fields
included), then spread the raw body over the record and persist. -/
def patchUser (us : List User) (i : String) (b : ReqBody) (now : String) :
    HResult × List User :=
  if (us.find? (fun u => u.id == i)).isNone then (HResult.notFound404, us)
  else
    match bodyErrors b with
    | [] =>
        match updateFirst (fun u => u.id == i) (fun old => patchMerge old b now) us with
        | none => (HResult.notFound404, us)
        | some (updated, us2) => (HResult.ok200 updated, us2)
    | es => (HResult.invalid422 es, us)

/-- `users.findIndex` followed by `users.splice(userIndex, 1)`: remove the
first record matching `p`, returning it and the remaining list in order. -/
def removeFirst (p : User → Bool) : List User → Option (User × List User)
  | [] => none
  | u :: rest =>
      if p u then some (u, rest)
      else
        match removeFirst p rest with
        | none => none
        | some (r, rest2) => some (r, u :: rest2)

/-- The `DELETE /v1/users/:id` handler: locate by id (404 when absent),
splice the record out, persist, answer 200 with the removed record. -/
def deleteUser (us : List User) (i : String) : HResult × List User :=
  match removeFirst (fun u => u.id == i) us with
  | none => (HResult.notFound404, us)
  | some (d, us2) => (HResult.ok200 d, us2)

/-- The state of `users.json` as `readUsersFile` can encounter it: missing
(`ENOENT`), readable with a parseable JSON array, or failing for any other
reason (I/O error or unparseable contents). -/
inductive FileState where
  | absent
  | stored (users : List User)
  | corrupt
  deriving DecidableEq, Repr

/-- `readUsersFile`: read and parse the file; on `ENOENT` write `[]` and
return the empty collection; rethrow every other failure (the handlers turn
it into a 500).  Returns the collection and the file state after the call. -/
def readUsersFile : FileState → Except Unit (List User × FileState)
  | FileState.absent => Except.ok ([], FileState.stored [])
  | FileState.stored us => Except.ok (us, FileState.stored us)
  | FileState.corrupt => Except.error ()

/-! ### Spec-side predicates

The list claim describes the result of `GET /v1/users` as ONE filter by the
AND-combination of the supplied query conditions; the source applies three
filters in sequence.  These predicates transcribe the claim's wording (an
absent or empty parameter imposes no condition) to be compared with the
source's `listUsers`. -/

/-- The claim's `q` condition: case-insensitive substring match on
`firstName` or `lastName` when the parameter is supplied and non-empty. -/
def specQCond (q : Option String) (u : User) : Bool :=
  match q with
  | none => true
  | some s =>
      s == "" || strContains u.firstName.toLower s.toLower ||
        strContains u.lastName.toLower s.toLower

/-- The claim's `city` condition: case-insensitive exact match when the
parameter is supplied and non-empty. -/
def specCityCond (c : Option String) (u : User) : Bool :=
  match c with
  | none => true
  | some s =>
      s == "" || (match u.city with
        | some uc => uc.toLower == s.toLower
        | none => false)

/-- The claim's `isActive` condition: boolean match against
`isActive === 'true'` when the parameter is supplied and non-empty. -/
def specActiveCond (a : Option String) (u : User) : Bool :=
  match a with
  | none => true
  | some s => s == "" || u.isActive == (s == "true")

/-- The seven keys of `userSchema`. -/
def schemaKeys : List String :=
  ["firstName", "lastName", "age", "email", "city", "hobbies", "isActive"]

/-- How many entries of a body's 422 error list carry a given `field`. -/
def errorCountFor (b : ReqBody) (K : FieldKey) : Nat :=
  (bodyErrors b).countP (fun e => e.field == K)

/-- The `hobbies` KEY itself is the errored field only when the value is
present and not an array (`array.base`). -/
def hobbiesNotArray : Option JValue → Bool
  | none => false
  | some (JValue.jarr _) => false
  | some _ => true

/-- Item `n` of the body's `hobbies` array exists and is not a string. -/
def hobbiesItemBad (b : ReqBody) (n : Nat) : Bool :=
  match b.hobbies with
  | some (JValue.jarr items) => items[n]? == some JItem.inonstr
  | _ => false

/-! ### Concrete fixtures for counterexamples and witnesses -/

/-- A schema-valid body with the four required fields and no `city`. -/
def annBody : ReqBody :=
  { firstName := some (JValue.jstr "Ann"), lastName := some (JValue.jstr "Lee"),
    age := some (JValue.jnum 30), email := some (JValue.jstr "a@b.com") }

/-- A stored record whose optional `city` is present. -/
def parisUser : User :=
  { id := "u1", firstName := "Old", lastName := "Name", age := 40,
    email := "o@n.com", city := some "Paris", hobbies := ["chess"],
    isActive := false, createdAt := "t0", updatedAt := "t0" }

/-- A PATCH body carrying only the optional `city` field. -/
def cityOnlyBody : ReqBody := { city := some (JValue.jstr "Lyon") }

/-- `annBody` with one extra key unknown to the schema. -/
def nicknameBody : ReqBody := { annBody with unknownKeys := ["nickname"] }

/-- The invalid body of the spec's concrete 422 scenario:
`{"firstName":"A","age":200,"email":"bad"}`. -/
def shortBadBody : ReqBody :=
  { firstName := some (JValue.jstr "A"), age := some (JValue.jnum 200),
    email := some (JValue.jstr "bad") }

/-- A body valid except for `hobbies: [1, 2]` — an array of two non-string
items. -/
def badHobbiesBody : ReqBody :=
  { annBody with hobbies := some (JValue.jarr [JItem.inonstr, JItem.inonstr]) }

/-- An active Paris record for the list-filter witnesses. -/
def activeParis : User :=
  { id := "a1", firstName := "Ann", lastName := "Lee", age := 30,
    email := "a@b.com", city := some "PARIS", hobbies := [], isActive := true,
    createdAt := "t0", updatedAt := "t0" }

/-- An inactive record in another city for the list-filter witnesses. -/
def inactiveOslo : User :=
  { id := "b2", firstName := "Bob", lastName := "Ray", age := 50,
    email := "b@r.com", city := some "Oslo", hobbies := [], isActive := false,
    createdAt := "t0", updatedAt := "t0" }

/-! ### Helper lemmas -/

theorem validateUserData_ok {b : ReqBody} (h : bodyErrors b = []) :
    validateUserData b = Except.ok (normalize b) := by
  unfold validateUserData
  rw [h]

theorem validateUserData_error {b : ReqBody} (h : bodyErrors b ≠ []) :
    validateUserData b = Except.error (bodyErrors b) := by
  unfold validateUserData
  cases hb : bodyErrors b with
  | nil => exact absurd hb h
  | cons e es => rfl

theorem updateFirst_split (p : User → Bool) (f : User → User)
    (pre post : List User) (old : User)
    (hpre : ∀ u ∈ pre, p u = false) (hold : p old = true) :
    updateFirst p f (pre ++ old :: post) = some (f old, pre ++ f old :: post) := by
  induction pre with
  | nil => simp [updateFirst, hold]
  | cons x xs ih =>
      have hx : p x = false := hpre x (by simp)
      have ih2 := ih (fun u hu => hpre u (by simp [hu]))
      simp [updateFirst, hx, ih2]

theorem removeFirst_split (p : User → Bool)
    (pre post : List User) (old : User)
    (hpre : ∀ u ∈ pre, p u = false) (hold : p old = true) :
    removeFirst p (pre ++ old :: post) = some (old, pre ++ post) := by
  induction pre with
  | nil => simp [removeFirst, hold]
  | cons x xs ih =>
      have hx : p x = false := hpre x (by simp)
      have ih2 := ih (fun u hu => hpre u (by simp [hu]))
      simp [removeFirst, hx, ih2]

theorem getUser_eq_none {us : List User} {i : String}
    (h : ∀ u ∈ us, u.id ≠ i) : getUser us i = none := by
  apply List.find?_eq_none.2
  intro u hu
  simpa using h u hu

/-! ### Claim theorems -/

/-- C9: `readUsersFile` returns the stored sequence unchanged; a missing
file is initialized to the empty sequence (and written back), and any other
read failure propagates as a storage error. -/
theorem C9_readUsersFile_contract :
    readUsersFile FileState.absent = Except.ok ([], FileState.stored []) ∧
    (∀ us, readUsersFile (FileState.stored us) = Except.ok (us, FileState.stored us)) ∧
    readUsersFile FileState.corrupt = Except.error () :=
  ⟨rfl, fun _ => rfl, rfl⟩

/-- C10: with `q` and `city` absent, a supplied non-empty `isActive` value
other than the exact string `"true"` filters to records with
`isActive = false`; exactly `"true"` filters to `isActive = true`; an
absent or empty parameter applies no filter. -/
theorem C10_isActive_string_filter (us : List User) (s : String) :
    (s ≠ "" → s ≠ "true" →
      listUsers us none none (some s) = us.filter (fun u => u.isActive == false)) ∧
    listUsers us none none (some "true") = us.filter (fun u => u.isActive == true) ∧
    listUsers us none none none = us ∧
    listUsers us none none (some "") = us := by
  refine ⟨fun hs ht => ?_, ?_, rfl, by simp [listUsers, applyQ, applyCity, applyIsActive]⟩
  · have h1 : (s == "") = false := by simpa using hs
    have h2 : (s == "true") = false := by simpa using ht
    simp [listUsers, applyQ, applyCity, applyIsActive, h1, h2, if_neg hs]
  · simp [listUsers, applyQ, applyCity, applyIsActive]

/-- C10 witness: at `s = "false"` on a two-record collection, only the
inactive record survives the filter. -/
theorem C10_isActive_string_filter_witness :
    ("false" : String) ≠ "" ∧ ("false" : String) ≠ "true" ∧
    listUsers [activeParis, inactiveOslo] none none (some "false") =
      List.filter (fun u => u.isActive == false) [activeParis, inactiveOslo] :=
  ⟨by decide, by decide,
    (C10_isActive_string_filter [activeParis, inactiveOslo] "false").1
      (by decide) (by decide)⟩

/-- C1: the PATCH handler does NOT validate the merged object: it validates
the raw request body against the full schema, so a body supplying only
`city` is answered 422 (with `any.required` errors for the four required
fields) and the collection is left unchanged — where the claim demands 200
after merge validation.  Evaluated at the failing input: one record with
id "u1", body `{city: "Lyon"}`. -/
theorem C1_patch_rejects_city_only_body :
    patchUser [parisUser] "u1" cityOnlyBody "t1" =
      (HResult.invalid422
        [⟨FieldKey.key "firstName", "any.required"⟩,
         ⟨FieldKey.key "lastName", "any.required"⟩,
         ⟨FieldKey.key "age", "any.required"⟩,
         ⟨FieldKey.key "email", "any.required"⟩],
       [parisUser]) := by
  decide

/-- C2 counterexample: a body with the four required fields valid plus one
unknown key `nickname` does not succeed with the unknown field discarded —
Joi's default `allowUnknown: false` rejects it with an `object.unknown`
("is not allowed") error. -/
theorem C2_unknown_field_is_rejected :
    validateUserData nicknameBody =
      Except.error [⟨FieldKey.key "nickname", "object.unknown"⟩] := by
  rfl

/-- C2 amended: when every schema field of the body passes its check,
validation succeeds (normalized record, defaults applied, only schema
fields) exactly when the body has no unknown keys; otherwise it fails with
one `object.unknown` error per unknown key, so no record with extra fields
is ever persisted. -/
theorem C2_unknown_fields_decide_validation (b : ReqBody)
    (hf : bodyErrors { b with unknownKeys := [] } = []) :
    validateUserData b =
      if b.unknownKeys.isEmpty then Except.ok (normalize b)
      else Except.error
        (b.unknownKeys.map (fun k => (⟨FieldKey.key k, "object.unknown"⟩ : FieldError))) := by
  have hsplit : bodyErrors b =
      bodyErrors { b with unknownKeys := [] } ++
        b.unknownKeys.map (fun k => (⟨FieldKey.key k, "object.unknown"⟩ : FieldError)) := by
    simp [bodyErrors]
  have hb : bodyErrors b =
      b.unknownKeys.map (fun k => (⟨FieldKey.key k, "object.unknown"⟩ : FieldError)) := by
    rw [hsplit, hf]; rfl
  cases hk : b.unknownKeys with
  | nil =>
      have : bodyErrors b = [] := by rw [hb, hk]; rfl
      simp [validateUserData_ok this, hk]
  | cons k ks =>
      have hne : bodyErrors b ≠ [] := by rw [hb, hk]; simp
      rw [validateUserData_error hne, hb, hk]
      rfl

/-- C2 witness: the amended theorem applied to `nicknameBody`, whose field
part is valid and whose sole unknown key is `nickname`. -/
theorem C2_unknown_fields_decide_validation_witness :
    bodyErrors { nicknameBody with unknownKeys := [] } = [] ∧
    validateUserData nicknameBody =
      if nicknameBody.unknownKeys.isEmpty then Except.ok (normalize nicknameBody)
      else Except.error
        (nicknameBody.unknownKeys.map (fun k => (⟨FieldKey.key k, "object.unknown"⟩ : FieldError))) :=
  ⟨by decide, C2_unknown_fields_decide_validation nicknameBody (by decide)⟩

/-- C3: for a schema-valid body and a generated id not yet in the
collection, `POST` answers 201 with a record carrying that fresh id, equal
`createdAt` and `updatedAt`, appended to the collection; the id resolves to
nothing before the request and to the new record afterwards. -/
theorem C3_post_creates_retrievable_record (us : List User) (b : ReqBody)
    (newId now : String)
    (hv : bodyErrors b = []) (hid : ∀ u ∈ us, u.id ≠ newId) :
    ∃ nu : User,
      postUsers us b newId now = (HResult.created201 nu, us ++ [nu]) ∧
      nu.id = newId ∧ nu.createdAt = nu.updatedAt ∧
      getUser us newId = none ∧
      getUser (us ++ [nu]) newId = some nu := by
  have hpre : getUser us newId = none := getUser_eq_none hid
  refine ⟨{ id := newId, firstName := (normalize b).firstName,
            lastName := (normalize b).lastName, age := (normalize b).age,
            email := (normalize b).email, city := (normalize b).city,
            hobbies := (normalize b).hobbies, isActive := (normalize b).isActive,
            createdAt := now, updatedAt := now }, ?_, rfl, rfl, hpre, ?_⟩
  · simp [postUsers, validateUserData_ok hv]
  · unfold getUser at hpre ⊢
    rw [List.find?_append, hpre]
    simp [List.find?]

/-- C3 witness: posting `annBody` with fresh id "id1" to the one-record
collection `[parisUser]`. -/
theorem C3_post_creates_retrievable_record_witness :
    bodyErrors annBody = [] ∧ (∀ u ∈ [parisUser], u.id ≠ "id1") ∧
    (∃ nu : User,
      postUsers [parisUser] annBody "id1" "t3" =
        (HResult.created201 nu, [parisUser] ++ [nu]) ∧
      nu.id = "id1" ∧ nu.createdAt = nu.updatedAt ∧
      getUser [parisUser] "id1" = none ∧
      getUser ([parisUser] ++ [nu]) "id1" = some nu) :=
  ⟨by decide, by decide,
    C3_post_creates_retrievable_record [parisUser] annBody "id1" "t3"
      (by decide) (by decide)⟩

/-- C5 counterexample: a valid PUT body with no `city` against a record
whose `city` is "Paris" yields an updated record that still carries
`city = "Paris"` — the claim demands the field be absent.  The JavaScript
spread `{...old, ...validatedData}` only overrides keys present in the
validated value, and Joi adds no `city` key when the body had none. -/
theorem C5_put_keeps_absent_city :
    annBody.city = none ∧
    (putUser [parisUser] "u1" annBody "t1").2.map User.city = [some "Paris"] := by
  constructor
  · rfl
  · rfl

/-- C5 amended: a valid PUT on an existing id keeps `id` and `createdAt`,
replaces `firstName`/`lastName`/`age`/`email` and the defaulted
`hobbies`/`isActive` with the validated body, refreshes `updatedAt` — but
the optional `city`, when absent from the body, RETAINS the existing
record's value (a `city` present in the body does replace it). -/
theorem C5_put_replaces_except_absent_city (pre post : List User) (old : User)
    (i : String) (b : ReqBody) (now : String)
    (hv : bodyErrors b = []) (hold : old.id = i)
    (hpre : ∀ u ∈ pre, u.id ≠ i) :
    ∃ nu : User,
      putUser (pre ++ old :: post) i b now = (HResult.ok200 nu, pre ++ nu :: post) ∧
      nu.id = old.id ∧ nu.createdAt = old.createdAt ∧ nu.updatedAt = now ∧
      nu.firstName = (normalize b).firstName ∧
      nu.lastName = (normalize b).lastName ∧
      nu.age = (normalize b).age ∧ nu.email = (normalize b).email ∧
      nu.hobbies = (normalize b).hobbies ∧
      nu.isActive = (normalize b).isActive ∧
      (b.city = none → nu.city = old.city) ∧
      (∀ s, b.city = some (JValue.jstr s) → nu.city = some s) := by
  have hpre2 : ∀ u ∈ pre, (fun u => u.id == i) u = false := by
    intro u hu; simpa using hpre u hu
  have hold2 : (fun u => u.id == i) old = true := by simpa using hold
  have hupd := updateFirst_split (fun u => u.id == i)
    (fun o => putMerge o (normalize b) now) pre post old hpre2 hold2
  refine ⟨putMerge old (normalize b) now, ?_, rfl, rfl, rfl, rfl, rfl, rfl, rfl,
    rfl, rfl, ?_, ?_⟩
  · simp [putUser, validateUserData_ok hv, hupd]
  · intro hc
    simp [putMerge, normalize, hc]
  · intro s hc
    simp [putMerge, normalize, hc]

/-- C5 witness: the amended theorem at the counterexample fixture —
`annBody` has no `city`, so the record keeps "Paris". -/
theorem C5_put_replaces_except_absent_city_witness :
    bodyErrors annBody = [] ∧ parisUser.id = "u1" ∧
    (∃ nu : User,
      putUser ([] ++ parisUser :: []) "u1" annBody "t1" =
        (HResult.ok200 nu, [] ++ nu :: []) ∧
      nu.id = parisUser.id ∧ nu.createdAt = parisUser.createdAt ∧
      nu.updatedAt = "t1" ∧
      nu.firstName = (normalize annBody).firstName ∧
      nu.lastName = (normalize annBody).lastName ∧
      nu.age = (normalize annBody).age ∧ nu.email = (normalize annBody).email ∧
      nu.hobbies = (normalize annBody).hobbies ∧
      nu.isActive = (normalize annBody).isActive ∧
      (annBody.city = none → nu.city = parisUser.city) ∧
      (∀ s, annBody.city = some (JValue.jstr s) → nu.city = some s)) :=
  ⟨by decide, by decide,
    C5_put_replaces_except_absent_city [] [] parisUser "u1" annBody "t1"
      (by decide) (by decide) (by intro u hu; cases hu)⟩

/-- C7: deleting an id present in a collection with unique ids answers 200
with exactly that record, removes it preserving the order of the rest, and
a subsequent lookup of the same id finds nothing (404). -/
theorem C7_delete_then_get_404 (pre post : List User) (u : User) (i : String)
    (hu : u.id = i) (hpre : ∀ x ∈ pre, x.id ≠ i)
    (hpost : ∀ x ∈ post, x.id ≠ i) :
    deleteUser (pre ++ u :: post) i = (HResult.ok200 u, pre ++ post) ∧
    getUser (pre ++ post) i = none := by
  have hpre2 : ∀ x ∈ pre, (fun x => x.id == i) x = false := by
    intro x hx; simpa using hpre x hx
  have hu2 : (fun x => x.id == i) u = true := by simpa using hu
  have hrem := removeFirst_split (fun x => x.id == i) pre post u hpre2 hu2
  refine ⟨by simp [deleteUser, hrem], getUser_eq_none ?_⟩
  intro x hx
  rcases List.mem_append.1 hx with h | h
  · exact hpre x h
  · exact hpost x h

/-- C7 witness: deleting "a1" from a two-record collection, then looking it
up. -/
theorem C7_delete_then_get_404_witness :
    activeParis.id = "a1" ∧
    (deleteUser ([] ++ activeParis :: [inactiveOslo]) "a1" =
        (HResult.ok200 activeParis, [] ++ [inactiveOslo]) ∧
      getUser ([] ++ [inactiveOslo]) "a1" = none) :=
  ⟨by decide,
    C7_delete_then_get_404 [] [inactiveOslo] activeParis "a1" (by decide)
      (by intro x hx; cases hx) (by decide)⟩

/-- C8: repeating an identical valid PUT on the same id yields, after the
second request, the same record and collection as after the first except
`updatedAt` advancing to the second timestamp. -/
theorem C8_put_idempotent (pre post : List User) (old : User) (i : String)
    (b : ReqBody) (t1 t2 : String)
    (hv : bodyErrors b = []) (hold : old.id = i)
    (hpre : ∀ x ∈ pre, x.id ≠ i) :
    ∃ u1 : User,
      putUser (pre ++ old :: post) i b t1 = (HResult.ok200 u1, pre ++ u1 :: post) ∧
      putUser (pre ++ u1 :: post) i b t2 =
        (HResult.ok200 { u1 with updatedAt := t2 },
         pre ++ { u1 with updatedAt := t2 } :: post) := by
  have hpre2 : ∀ x ∈ pre, (fun x => x.id == i) x = false := by
    intro x hx; simpa using hpre x hx
  have hold2 : (fun x => x.id == i) old = true := by simpa using hold
  refine ⟨putMerge old (normalize b) t1, ?_, ?_⟩
  · have hupd := updateFirst_split (fun x => x.id == i)
      (fun o => putMerge o (normalize b) t1) pre post old hpre2 hold2
    simp [putUser, validateUserData_ok hv, hupd]
  · have hold3 : (fun x => x.id == i) (putMerge old (normalize b) t1) = true := by
      simpa [putMerge] using hold
    have hupd := updateFirst_split (fun x => x.id == i)
      (fun o => putMerge o (normalize b) t2) pre post
      (putMerge old (normalize b) t1) hpre2 hold3
    have hmm : putMerge (putMerge old (normalize b) t1) (normalize b) t2 =
        { putMerge old (normalize b) t1 with updatedAt := t2 } := by
      cases hc : (normalize b).city <;> simp [putMerge, hc]
    simp [putUser, validateUserData_ok hv, hupd, hmm]

/-- C8 witness: the same PUT of `annBody` twice on the "Paris" record. -/
theorem C8_put_idempotent_witness :
    bodyErrors annBody = [] ∧ parisUser.id = "u1" ∧
    (∃ u1 : User,
      putUser ([] ++ parisUser :: []) "u1" annBody "t1" =
        (HResult.ok200 u1, [] ++ u1 :: []) ∧
      putUser ([] ++ u1 :: []) "u1" annBody "t2" =
        (HResult.ok200 { u1 with updatedAt := "t2" },
         [] ++ { u1 with updatedAt := "t2" } :: [])) :=
  ⟨by decide, by decide,
    C8_put_idempotent [] [] parisUser "u1" annBody "t1" "t2" (by decide)
      (by decide) (by intro x hx; cases hx)⟩

theorem checkName_field (key : String) (v : Option JValue) (e : FieldError)
    (h : checkName key v = some e) : e.field = FieldKey.key key := by
  unfold checkName at h
  split at h <;> (try split at h) <;> (try split at h) <;> (try split at h) <;>
    cases h <;> rfl

theorem checkAge_field (v : Option JValue) (e : FieldError)
    (h : checkAge v = some e) : e.field = FieldKey.key "age" := by
  unfold checkAge ageRange at h
  split at h <;> (try split at h) <;> (try split at h) <;> (try split at h) <;>
    cases h <;> rfl

theorem checkEmail_field (v : Option JValue) (e : FieldError)
    (h : checkEmail v = some e) : e.field = FieldKey.key "email" := by
  unfold checkEmail at h
  split at h <;> (try split at h) <;> (try split at h) <;> cases h <;> rfl

theorem checkCity_field (v : Option JValue) (e : FieldError)
    (h : checkCity v = some e) : e.field = FieldKey.key "city" := by
  unfold checkCity at h
  split at h <;> (try split at h) <;> (try split at h) <;> (try split at h) <;>
    cases h <;> rfl

theorem checkIsActive_field (v : Option JValue) (e : FieldError)
    (h : checkIsActive v = some e) : e.field = FieldKey.key "isActive" := by
  unfold checkIsActive at h
  split at h <;> (try split at h) <;> cases h <;> rfl

theorem countP_toList_key (o : Option FieldError) (k : String)
    (h : ∀ e, o = some e → e.field = FieldKey.key k) (K : FieldKey) :
    o.toList.countP (fun e => e.field == K) =
      if o.isSome ∧ K = FieldKey.key k then 1 else 0 := by
  cases o with
  | none => simp
  | some e =>
      have he := h e rfl
      by_cases hK : K = FieldKey.key k
      · subst hK
        simp [List.countP_cons, he]
      · have hb : (e.field == K) = false := by
          rw [he]
          exact beq_eq_false_iff_ne.2 (fun hh => hK hh.symm)
        simp [List.countP_cons, hb, hK]

theorem hobbiesItemErrors_key_count (items : List JItem) (start : Nat)
    (f : String) :
    (hobbiesItemErrors start items).countP
      (fun e => e.field == FieldKey.key f) = 0 := by
  induction items generalizing start with
  | nil => rfl
  | cons it rest ih =>
      cases it with
      | istr s => simpa [hobbiesItemErrors] using ih (start + 1)
      | inonstr => simp [hobbiesItemErrors, List.countP_cons, ih (start + 1)]

theorem hobbiesItemErrors_idx_count (items : List JItem) (start n : Nat) :
    (hobbiesItemErrors start items).countP
      (fun e => e.field == FieldKey.idx n) =
      if start ≤ n ∧ items[n - start]? = some JItem.inonstr then 1 else 0 := by
  induction items generalizing start with
  | nil => simp [hobbiesItemErrors]
  | cons it rest ih =>
      cases it with
      | istr s =>
          rw [hobbiesItemErrors, ih (start + 1)]
          by_cases h1 : start + 1 ≤ n
          · have h2 : start ≤ n := by omega
            have h3 : n - start = (n - (start + 1)) + 1 := by omega
            simp [h1, h2, h3]
          · by_cases h2 : start ≤ n
            · have h3 : n = start := by omega
              subst h3
              simp [h1, h2, Nat.sub_self]
            · simp [h1, h2]
      | inonstr =>
          rw [hobbiesItemErrors, List.countP_cons, ih (start + 1)]
          by_cases h0 : n = start
          · subst h0
            have h1 : ¬(n + 1 ≤ n) := by omega
            simp [h1, Nat.sub_self]
          · by_cases h1 : start + 1 ≤ n
            · have h2 : start ≤ n := by omega
              have h3 : n - start = (n - (start + 1)) + 1 := by omega
              simp [h0, h1, h2, h3, Ne.symm h0]
            · have h2 : ¬(start ≤ n) := by omega
              simp [h0, h1, h2, Ne.symm h0]

theorem checkHobbies_key_count (v : Option JValue) (f : String) :
    (checkHobbies v).countP (fun e => e.field == FieldKey.key f) =
      if hobbiesNotArray v ∧ f = "hobbies" then 1 else 0 := by
  cases v with
  | none => simp [checkHobbies, hobbiesNotArray]
  | some j =>
      cases j with
      | jarr items =>
          simp [checkHobbies, hobbiesNotArray, hobbiesItemErrors_key_count]
      | jstr s =>
          by_cases hf : f = "hobbies"
          · subst hf
            simp [checkHobbies, hobbiesNotArray, List.countP_cons]
          · have hb : (FieldKey.key "hobbies" == FieldKey.key f) = false :=
              beq_eq_false_iff_ne.2
                (fun hh => hf (by injection hh with h2; exact h2.symm))
            simp [checkHobbies, hobbiesNotArray, List.countP_cons, hb, hf]
      | jnum m =>
          by_cases hf : f = "hobbies"
          · subst hf
            simp [checkHobbies, hobbiesNotArray, List.countP_cons]
          · have hb : (FieldKey.key "hobbies" == FieldKey.key f) = false :=
              beq_eq_false_iff_ne.2
                (fun hh => hf (by injection hh with h2; exact h2.symm))
            simp [checkHobbies, hobbiesNotArray, List.countP_cons, hb, hf]
      | jbool bv =>
          by_cases hf : f = "hobbies"
          · subst hf
            simp [checkHobbies, hobbiesNotArray, List.countP_cons]
          · have hb : (FieldKey.key "hobbies" == FieldKey.key f) = false :=
              beq_eq_false_iff_ne.2
                (fun hh => hf (by injection hh with h2; exact h2.symm))
            simp [checkHobbies, hobbiesNotArray, List.countP_cons, hb, hf]

theorem checkHobbies_idx_count (v : Option JValue) (n : Nat) :
    (checkHobbies v).countP (fun e => e.field == FieldKey.idx n) =
      if (match v with
          | some (JValue.jarr items) => items[n]? == some JItem.inonstr
          | _ => false) then 1 else 0 := by
  cases v with
  | none => simp [checkHobbies]
  | some j =>
      cases j with
      | jarr items =>
          rw [checkHobbies, hobbiesItemErrors_idx_count]
          simp
      | jstr s => simp [checkHobbies, List.countP_cons]
      | jnum m => simp [checkHobbies, List.countP_cons]
      | jbool bv => simp [checkHobbies, List.countP_cons]

theorem unknown_key_count (u : List String) (f : String) :
    (u.map (fun k => (⟨FieldKey.key k, "object.unknown"⟩ : FieldError))).countP
      (fun e => e.field == FieldKey.key f) = u.count f := by
  induction u with
  | nil => rfl
  | cons k rest ih => simp [List.countP_cons, List.count_cons, ih]

theorem unknown_idx_count (u : List String) (n : Nat) :
    (u.map (fun k => (⟨FieldKey.key k, "object.unknown"⟩ : FieldError))).countP
      (fun e => e.field == FieldKey.idx n) = 0 := by
  induction u with
  | nil => rfl
  | cons k rest ih => simp [List.countP_cons, ih]

theorem errorCount_key (b : ReqBody) (f : String) :
    errorCountFor b (FieldKey.key f) =
      (if (checkName "firstName" b.firstName).isSome ∧ f = "firstName" then 1 else 0) +
      (if (checkName "lastName" b.lastName).isSome ∧ f = "lastName" then 1 else 0) +
      (if (checkAge b.age).isSome ∧ f = "age" then 1 else 0) +
      (if (checkEmail b.email).isSome ∧ f = "email" then 1 else 0) +
      (if (checkCity b.city).isSome ∧ f = "city" then 1 else 0) +
      (if hobbiesNotArray b.hobbies ∧ f = "hobbies" then 1 else 0) +
      (if (checkIsActive b.isActive).isSome ∧ f = "isActive" then 1 else 0) +
      b.unknownKeys.count f := by
  unfold errorCountFor bodyErrors
  simp only [List.countP_append]
  rw [countP_toList_key _ _ (checkName_field "firstName" b.firstName),
      countP_toList_key _ _ (checkName_field "lastName" b.lastName),
      countP_toList_key _ _ (checkAge_field b.age),
      countP_toList_key _ _ (checkEmail_field b.email),
      countP_toList_key _ _ (checkCity_field b.city),
      checkHobbies_key_count,
      countP_toList_key _ _ (checkIsActive_field b.isActive),
      unknown_key_count]
  simp only [FieldKey.key.injEq]

theorem errorCount_idx (b : ReqBody) (n : Nat) :
    errorCountFor b (FieldKey.idx n) = if hobbiesItemBad b n then 1 else 0 := by
  unfold errorCountFor bodyErrors
  simp only [List.countP_append]
  rw [countP_toList_key _ _ (checkName_field "firstName" b.firstName),
      countP_toList_key _ _ (checkName_field "lastName" b.lastName),
      countP_toList_key _ _ (checkAge_field b.age),
      countP_toList_key _ _ (checkEmail_field b.email),
      countP_toList_key _ _ (checkCity_field b.city),
      checkHobbies_idx_count,
      countP_toList_key _ _ (checkIsActive_field b.isActive),
      unknown_idx_count]
  simp [hobbiesItemBad]

/-- C4 counterexample: the body valid except for `hobbies: [1, 2]` violates
exactly one field (`hobbies`), yet the 422 carries TWO error entries whose
fields are the numeric item indices 0 and 1 — Joi reports one detail per
bad item with `context.key` the index — and no entry at all is named
`hobbies`.  So "exactly one error entry per violated field" fails. -/
theorem C4_per_field_shape_refuted :
    postUsers [] badHobbiesBody "id1" "t0" =
      (HResult.invalid422
        [⟨FieldKey.idx 0, "string.base"⟩, ⟨FieldKey.idx 1, "string.base"⟩],
       []) ∧
    errorCountFor badHobbiesBody (FieldKey.key "hobbies") = 0 ∧
    (bodyErrors badHobbiesBody).length = 2 := by
  decide

/-- C4 amended: a body violating at least one constraint (after Joi's
`convert` coercions) makes `POST` and `PUT` answer 422 carrying the
collected error list and leave the collection untouched; the error list
has exactly one entry per violated top-level field, named by that field —
except an invalid `hobbies` ARRAY, which instead contributes exactly one
entry per non-string item, named by the item's numeric index — and exactly
one entry per unknown key.  `hnd` / `hnk` state what JSON object keys
satisfy anyway: pairwise-distinct names outside the schema's own. -/
theorem C4_invalid_body_is_422_counts (us : List User) (b : ReqBody)
    (i newId now : String)
    (hinv : bodyErrors b ≠ [])
    (hnd : b.unknownKeys.Nodup)
    (hnk : ∀ k ∈ b.unknownKeys, k ∉ schemaKeys) :
    postUsers us b newId now = (HResult.invalid422 (bodyErrors b), us) ∧
    putUser us i b now = (HResult.invalid422 (bodyErrors b), us) ∧
    errorCountFor b (FieldKey.key "firstName") =
      (if (checkName "firstName" b.firstName).isSome then 1 else 0) ∧
    errorCountFor b (FieldKey.key "lastName") =
      (if (checkName "lastName" b.lastName).isSome then 1 else 0) ∧
    errorCountFor b (FieldKey.key "age") =
      (if (checkAge b.age).isSome then 1 else 0) ∧
    errorCountFor b (FieldKey.key "email") =
      (if (checkEmail b.email).isSome then 1 else 0) ∧
    errorCountFor b (FieldKey.key "city") =
      (if (checkCity b.city).isSome then 1 else 0) ∧
    errorCountFor b (FieldKey.key "hobbies") =
      (if hobbiesNotArray b.hobbies then 1 else 0) ∧
    errorCountFor b (FieldKey.key "isActive") =
      (if (checkIsActive b.isActive).isSome then 1 else 0) ∧
    (∀ k ∈ b.unknownKeys, errorCountFor b (FieldKey.key k) = 1) ∧
    (∀ n : Nat, errorCountFor b (FieldKey.idx n) =
      if hobbiesItemBad b n then 1 else 0) := by
  have hcnt : ∀ g, g ∈ schemaKeys → b.unknownKeys.count g = 0 := by
    intro g hg
    rw [List.count_eq_zero]
    intro hmem
    exact hnk g hmem hg
  refine ⟨by simp [postUsers, validateUserData_error hinv],
    by simp [putUser, validateUserData_error hinv],
    ?_, ?_, ?_, ?_, ?_, ?_, ?_, ?_, fun n => errorCount_idx b n⟩
  · rw [errorCount_key]
    simp [hcnt "firstName" (by decide)]
  · rw [errorCount_key]
    simp [hcnt "lastName" (by decide)]
  · rw [errorCount_key]
    simp [hcnt "age" (by decide)]
  · rw [errorCount_key]
    simp [hcnt "email" (by decide)]
  · rw [errorCount_key]
    simp [hcnt "city" (by decide)]
  · rw [errorCount_key]
    simp [hcnt "hobbies" (by decide)]
  · rw [errorCount_key]
    simp [hcnt "isActive" (by decide)]
  · intro k hk
    have h1 : k ∉ schemaKeys := hnk k hk
    have e1 : ¬(k = "firstName") := fun hh => h1 (by rw [hh]; decide)
    have e2 : ¬(k = "lastName") := fun hh => h1 (by rw [hh]; decide)
    have e3 : ¬(k = "age") := fun hh => h1 (by rw [hh]; decide)
    have e4 : ¬(k = "email") := fun hh => h1 (by rw [hh]; decide)
    have e5 : ¬(k = "city") := fun hh => h1 (by rw [hh]; decide)
    have e6 : ¬(k = "hobbies") := fun hh => h1 (by rw [hh]; decide)
    have e7 : ¬(k = "isActive") := fun hh => h1 (by rw [hh]; decide)
    rw [errorCount_key]
    simp [e1, e2, e3, e4, e5, e6, e7, List.count_eq_one_of_mem hnd hk]

/-- C4 witness: the spec's concrete scenario
`{"firstName":"A","age":200,"email":"bad"}` (errors: `firstName` too short,
`lastName` missing, `age` too large, `email` invalid), against a one-record
collection. -/
theorem C4_invalid_body_is_422_counts_witness :
    bodyErrors shortBadBody ≠ [] ∧ shortBadBody.unknownKeys.Nodup ∧
    (∀ k ∈ shortBadBody.unknownKeys, k ∉ schemaKeys) ∧
    (postUsers [parisUser] shortBadBody "id9" "t5" =
        (HResult.invalid422 (bodyErrors shortBadBody), [parisUser]) ∧
      putUser [parisUser] "u1" shortBadBody "t5" =
        (HResult.invalid422 (bodyErrors shortBadBody), [parisUser]) ∧
      errorCountFor shortBadBody (FieldKey.key "firstName") =
        (if (checkName "firstName" shortBadBody.firstName).isSome then 1 else 0) ∧
      errorCountFor shortBadBody (FieldKey.key "lastName") =
        (if (checkName "lastName" shortBadBody.lastName).isSome then 1 else 0) ∧
      errorCountFor shortBadBody (FieldKey.key "age") =
        (if (checkAge shortBadBody.age).isSome then 1 else 0) ∧
      errorCountFor shortBadBody (FieldKey.key "email") =
        (if (checkEmail shortBadBody.email).isSome then 1 else 0) ∧
      errorCountFor shortBadBody (FieldKey.key "city") =
        (if (checkCity shortBadBody.city).isSome then 1 else 0) ∧
      errorCountFor shortBadBody (FieldKey.key "hobbies") =
        (if hobbiesNotArray shortBadBody.hobbies then 1 else 0) ∧
      errorCountFor shortBadBody (FieldKey.key "isActive") =
        (if (checkIsActive shortBadBody.isActive).isSome then 1 else 0) ∧
      (∀ k ∈ shortBadBody.unknownKeys,
        errorCountFor shortBadBody (FieldKey.key k) = 1) ∧
      (∀ n : Nat, errorCountFor shortBadBody (FieldKey.idx n) =
        if hobbiesItemBad shortBadBody n then 1 else 0)) :=
  ⟨by decide, by decide, by decide,
    C4_invalid_body_is_422_counts [parisUser] shortBadBody "u1" "id9" "t5"
      (by decide) (by decide) (by decide)⟩

theorem applyQ_eq_filter (q : Option String) (us : List User) :
    applyQ q us = us.filter (specQCond q) := by
  cases q with
  | none => exact (List.filter_eq_self.2 (fun a _ => rfl)).symm
  | some s =>
      by_cases hs : s = ""
      · subst hs
        exact (List.filter_eq_self.2 (fun a _ => rfl)).symm
      · have h1 : (s == "") = false := by simpa using hs
        simp only [applyQ, if_neg hs]
        apply List.filter_congr
        intro x _
        simp [specQCond, h1]

theorem applyCity_eq_filter (c : Option String) (us : List User) :
    applyCity c us = us.filter (specCityCond c) := by
  cases c with
  | none => exact (List.filter_eq_self.2 (fun a _ => rfl)).symm
  | some s =>
      by_cases hs : s = ""
      · subst hs
        exact (List.filter_eq_self.2 (fun a _ => rfl)).symm
      · have h1 : (s == "") = false := by simpa using hs
        simp only [applyCity, if_neg hs]
        apply List.filter_congr
        intro x _
        simp [specCityCond, h1]

theorem applyIsActive_eq_filter (a : Option String) (us : List User) :
    applyIsActive a us = us.filter (specActiveCond a) := by
  cases a with
  | none => exact (List.filter_eq_self.2 (fun a _ => rfl)).symm
  | some s =>
      by_cases hs : s = ""
      · subst hs
        exact (List.filter_eq_self.2 (fun a _ => rfl)).symm
      · have h1 : (s == "") = false := by simpa using hs
        simp only [applyIsActive, if_neg hs]
        apply List.filter_congr
        intro x _
        simp [specActiveCond, h1]

/-- C6: the three sequential filters of `GET /v1/users` equal ONE filter of
the stored collection by the AND-combination of the supplied conditions
(absent or empty parameters imposing none); in particular
`?city=Paris&isActive=true` keeps exactly the active records whose city
matches "Paris" case-insensitively. -/
theorem C6_list_filter_and_combination (us : List User) (q c a : Option String) :
    listUsers us q c a =
      us.filter (fun u => specQCond q u && specCityCond c u && specActiveCond a u) ∧
    (∀ u, u ∈ listUsers us none (some "Paris") (some "true") ↔
      u ∈ us ∧ (∃ uc, u.city = some uc ∧ uc.toLower = "Paris".toLower) ∧
        u.isActive = true) := by
  constructor
  · unfold listUsers
    rw [applyQ_eq_filter, applyCity_eq_filter, applyIsActive_eq_filter,
      List.filter_filter, List.filter_filter]
    apply List.filter_congr
    intro x _
    cases specQCond q x <;> cases specCityCond c x <;> cases specActiveCond a x <;> rfl
  · intro u
    unfold listUsers
    rw [applyQ_eq_filter, applyCity_eq_filter, applyIsActive_eq_filter]
    have h1 : (("Paris" : String) == "") = false := rfl
    have h2 : (("true" : String) == "") = false := rfl
    have h3 : (("true" : String) == "true") = true := rfl
    cases hc : u.city with
    | none =>
        simp [List.mem_filter, specQCond, specCityCond, specActiveCond,
          hc, h1, h2, h3]
    | some uc =>
        simp [List.mem_filter, specQCond, specCityCond, specActiveCond,
          hc, h1, h2, h3]
        tauto

end RestAPI
